import Mathlib

/- Verification of the `plex` lexer (`plex/lexer.py`).

   Shallow embedding conventions:
   - Python strings are `List Char`.
   - The regular-expression engine is an external capability.  A compiled
     pattern is modelled as an anchored matching function
     `List Char → Nat → Option Nat` that, given the buffer and a start
     offset, returns the end offset of a match starting exactly there
     (`re.Pattern.match(buffer, pos)` together with `match.end()`;
     `match.group(0)` is then the slice `buffer[pos:end]`).
   - Exceptions are modelled with `Except`. -/

set_option linter.unusedVariables false

/-- Python whitespace, for the module constant `WHITESPACE = "\s+"` (line 51):
space, tab, newline, carriage return, vertical tab, form feed.  (Python's
`\s` also covers further Unicode whitespace; no claim depends on the exact
character set.) -/
def isPySpace (c : Char) : Bool :=
  c = ' ' || c = '\t' || c = '\n' || c = '\r' || c = '\x0b' || c = '\x0c'

/-- Python slice `b[i:j]` for non-negative bounds (out-of-range bounds clamp). -/
def pySlice (b : List Char) (i j : Nat) : List Char :=
  (b.take j).drop i

/-- Length of the maximal whitespace run at the head of a list. -/
def wsRun (l : List Char) : Nat :=
  (l.takeWhile isPySpace).length

/-- The compiled whitespace pattern `\s+` applied as
`self._ws_pattern.match(buffer, pos)` (line 180): an anchored match of one or
more whitespace characters.  `+` is greedy, so the match consumes the maximal
whitespace run; the returned value is `match.end()`. -/
def wsMatch (b : List Char) (i : Nat) : Option Nat :=
  if wsRun (b.drop i) = 0 then none else some (i + wsRun (b.drop i))

/-- Python `str.split('\n')` (used at line 206). -/
def pySplitNl : List Char → List (List Char)
  | [] => [[]]
  | c :: cs =>
    if c = '\n' then [] :: pySplitNl cs
    else
      match pySplitNl cs with
      | [] => [[c]]
      | l :: ls => (c :: l) :: ls

/-- The `Token` object (lines 76-101): `value` is the matched text, `type`
the rule name, `pos` the `(line, column)` pair from `get_pos` (the column is
a Python `int` difference, hence `Int`). -/
structure Token where
  value : List Char
  type : String
  pos : Nat × Int
deriving Repr, DecidableEq

/-- The mutable cursor/session attributes of `Lexer` set in `__init__`
(lines 146-154): `buffer`, `pos`, `col_no`, `_line_start`, `_ignore_ws`.
They are split into their own structure because rule actions and error hooks
receive the lexer object and may mutate these attributes. -/
structure LexCursor where
  buffer : List Char
  pos : Nat
  col_no : Nat
  line_start : Nat
  ignore_ws : Bool
deriving Repr, DecidableEq

/-- A rule action `func(self, token)` (see `on_match`, lines 227-259): it may
mutate the lexer's cursor attributes and returns the token to yield
(a Python `None` return is `none`). -/
def LexAction : Type :=
  LexCursor → Token → LexCursor × Option Token

/-- An installed error hook `func(self, value)` (see `on_error`,
lines 270-294): it may mutate the cursor or raise its own failure. -/
def LexErrHook : Type :=
  LexCursor → Char → Except (List Char) LexCursor

/-- `PatternAction` (lines 64-73): a compiled pattern paired with its action. -/
structure PatternAction where
  pattern : List Char → Nat → Option Nat
  action : LexAction

/-- The `Lexer` object: the cursor attributes plus `_error_func` and
`_rules`.  `_rules` is a Python dict (insertion-ordered), modelled as an
association list; `_ws_pattern` is the compiled constant modelled by
`wsMatch`. -/
structure Lexer extends LexCursor where
  error_func : Option LexErrHook
  rules : List (String × PatternAction)

/-- `Lexer.__init__` (lines 146-154). -/
def Lexer.init : Lexer :=
  { buffer := [], pos := 0, col_no := 0, line_start := 0, ignore_ws := true,
    error_func := none, rules := [] }

/-- `Lexer.setup(buffer, ignore_ws=True)` (lines 157-172).  The source
assigns `buffer`, `pos = 0`, `col_no = 0` and `_ignore_ws`; it does not
assign `_line_start`. -/
def Lexer.setup (l : Lexer) (buffer : List Char) (ignore_ws : Bool) : Lexer :=
  { l with buffer := buffer, pos := 0, col_no := 0, ignore_ws := ignore_ws }

/-- `Lexer.get_pos` (lines 198-201):
`line_no = self.buffer.count('\n', 0, self.pos)` counts newlines in
`buffer[0:pos]`; the column is `self.pos - self._line_start` (Python `int`
subtraction). -/
def LexCursor.get_pos (c : LexCursor) : Nat × Int :=
  ((pySlice c.buffer 0 c.pos).count '\n', (c.pos : Int) - (c.line_start : Int))

/-- `Lexer.get_pos` as the public method on the lexer object. -/
def Lexer.get_pos (l : Lexer) : Nat × Int :=
  l.toLexCursor.get_pos

/-- Lines 179-184 of `_token`: the whitespace-skip phase.  On a whitespace
match whose text contains a newline, `_line_start` is set to the match end;
in either case `pos` advances to the match end. -/
def skipWs (c : LexCursor) : LexCursor :=
  if c.ignore_ws then
    match wsMatch c.buffer c.pos with
    | some e =>
        if (pySlice c.buffer c.pos e).contains '\n' then
          { c with line_start := e, pos := e }
        else
          { c with pos := e }
    | none => c
  else c

/-- The module constant `LEXER_ERR_MSG` (lines 52-61) applied as
`LEXER_ERR_MSG.format(line, column, source_line, ' ' * column)` (line 208). -/
def LEXER_ERR_MSG (line : Nat) (column : Int) (source_line spaces : List Char) :
    List Char :=
  "\n\nlexing error at line ".data ++ (toString line).data
    ++ ", column ".data ++ (toString column).data
    ++ ":\n\n     ".data ++ source_line
    ++ "\n     ".data ++ spaces
    ++ "^\n\ninvalid character in source\n".data

/-- The exceptions the engine can raise. -/
inductive PyErr where
  | lexerError (msg : List Char)
  | attributeError (attr : String)
  | stopIteration
deriving Repr, DecidableEq

/-- `Lexer._error` (lines 203-213).  With no hook installed it raises
`LexerError` with the rendered diagnostic.  With a hook installed, line 213
evaluates `self.buffer[self._pos]` — but no attribute `_pos` is ever assigned
on the class (the cursor attribute is named `pos`), so Python raises
`AttributeError('_pos')` before the hook is ever called. -/
def Lexer._error (l : Lexer) : Except PyErr Lexer :=
  match l.error_func with
  | none =>
      let lc := l.toLexCursor.get_pos
      let source_line := (pySplitNl l.buffer).getD lc.1 []
      Except.error (PyErr.lexerError
        (LEXER_ERR_MSG lc.1 lc.2 source_line (List.replicate lc.2.toNat ' ')))
  | some _func => Except.error (PyErr.attributeError ("_pos"))

/-- The rule loop of `_token` (lines 189-195): try each registered rule in
insertion order, anchored at the current offset; return the first rule whose
pattern matches, together with the match end. -/
def firstMatch : List (String × PatternAction) → List Char → Nat →
    Option (String × PatternAction × Nat)
  | [], _, _ => none
  | (token_name, pa) :: rest, b, i =>
    match pa.pattern b i with
    | some e => some (token_name, pa, e)
    | none => firstMatch rest b i

/-- `Lexer._token` (lines 174-196): skip whitespace; if the buffer is
exhausted return `None`; otherwise take the first matching rule, build the
token with the matched text, the rule name and the pre-advance position,
invoke the action, and only then advance `pos` to the match end (the
assignment `self.pos = match.end()` runs after the action and overrides any
`pos` the action set).  If no rule matches, `_error` is called; it always
raises, and were it to return, `_token` would fall through to `None`. -/
def Lexer._token (l : Lexer) : Except PyErr (Lexer × Option Token) :=
  let lc := skipWs l.toLexCursor
  if lc.buffer.length ≤ lc.pos then
    Except.ok ({ l with toLexCursor := lc }, none)
  else
    match firstMatch l.rules lc.buffer lc.pos with
    | some (token_name, pa, e) =>
        let token : Token := ⟨pySlice lc.buffer lc.pos e, token_name, lc.get_pos⟩
        let res := pa.action lc token
        Except.ok ({ l with toLexCursor := { res.1 with pos := e } }, res.2)
    | none =>
        match Lexer._error { l with toLexCursor := lc } with
        | Except.error err => Except.error err
        | Except.ok l' => Except.ok (l', none)

/-- `Lexer.__next__` (lines 218-222): yield the token from `_token`, or raise
`StopIteration` when `_token` returns `None`. -/
def Lexer.next (l : Lexer) : Except PyErr (Lexer × Token) :=
  match l._token with
  | Except.ok (l', some t) => Except.ok (l', t)
  | Except.ok (_, none) => Except.error PyErr.stopIteration
  | Except.error e => Except.error e

/-- Assignment `d[k] = v` on a Python (insertion-ordered) dict: replacing an
existing key keeps its position; a new key is appended. -/
def dictSet (rules : List (String × PatternAction)) (k : String)
    (v : PatternAction) : List (String × PatternAction) :=
  if rules.any (fun p => p.1 == k) then
    rules.map (fun p => if p.1 == k then (k, v) else p)
  else rules ++ [(k, v)]

/-- `Lexer.on_match(pattern)` applied to a decorated function (lines
262-268): `re.compile(pattern)` — the external matching capability, passed
here as `re_compile` — runs first; only if it succeeds is the rule stored
under the function's name. -/
def Lexer.on_match (l : Lexer)
    (re_compile : String → Except (List Char) (List Char → Nat → Option Nat))
    (pattern : String) (func_name : String) (func : LexAction) :
    Except (List Char) Lexer :=
  match re_compile pattern with
  | Except.error e => Except.error e
  | Except.ok compiled_pattern =>
      Except.ok { l with rules := dictSet l.rules func_name ⟨compiled_pattern, func⟩ }

/-- `Lexer.on_error(func)` (lines 270-294). -/
def Lexer.on_error (l : Lexer) (func : LexErrHook) : Lexer :=
  { l with error_func := some func }

/-- Specification-side characterisation used by the error diagnostic claim:
the full text of the source line containing offset `p` — the characters from
the last newline strictly before `p` (or the buffer start) up to the next
newline at or after `p` (or the buffer end). -/
def lineContaining (b : List Char) (p : Nat) : List Char :=
  ((b.take p).reverse.takeWhile (fun c => c != '\n')).reverse
    ++ (b.drop p).takeWhile (fun c => c != '\n')

/-- Observer for the round-trip property: pull tokens with `_token` under a
fuel bound, recording for each pull the whitespace run that the pull skipped
followed by the value of the token it yielded; the final entry is the
whitespace run skipped by the pull that signalled end of input.  Returns
`none` if an error is raised or the fuel runs out. -/
def runPieces : Nat → Lexer → Option (List (List Char))
  | 0, _ => none
  | fuel+1, l =>
    let ws := pySlice l.buffer l.pos (skipWs l.toLexCursor).pos
    match l._token with
    | Except.ok (_, none) => some [ws]
    | Except.ok (l', some tok) =>
        (runPieces fuel l').map (fun rest => ws :: tok.value :: rest)
    | Except.error _ => none

/-- Wellformedness of a compiled pattern as an anchored matcher: a match
starting at `i` ends at some `e` with `i ≤ e ≤ length` (guaranteed by the
regex capability for any real pattern). -/
def PatternWF (p : List Char → Nat → Option Nat) : Prop :=
  ∀ b i e, p b i = some e → i ≤ e ∧ e ≤ b.length

/-- An action that returns its token unchanged and leaves the cursor alone. -/
def IdAction (a : LexAction) : Prop :=
  ∀ c t, a c t = (c, some t)

/-! ### Basic facts about the embedded operations -/

/-- C2: the hook used for the C2 evaluation; it would skip the offending
character and record nothing. -/
def c2hook : LexErrHook := fun c _ => Except.ok { c with pos := c.pos + 1 }

/-- C2: the lexer used for the C2 evaluation: an error hook is installed and
no rule matches the buffer `"#"`. -/
def c2lexer : Lexer :=
  { buffer := "#".data, pos := 0, col_no := 0, line_start := 0,
    ignore_ws := true, error_func := some c2hook, rules := [] }

/-- C9 witness: a compile capability that rejects every pattern source. -/
def c9compile : String → Except (List Char) (List Char → Nat → Option Nat) :=
  fun _ => Except.error ("bad pattern".data)

/-- C8 witness: a buffer consisting only of whitespace is exhausted after the
trailing whitespace skip, and the first pull raises `StopIteration`. -/
def c8lexer : Lexer :=
  { buffer := "  ".data, pos := 0, col_no := 0, line_start := 0,
    ignore_ws := true, error_func := none, rules := [] }

/-- C5 witness: a one-character rule with an identity action. -/
def c5pa : PatternAction :=
  { pattern := fun b i => if i + 1 ≤ b.length then some (i + 1) else none,
    action := fun c t => (c, some t) }

/-- C5 witness: a buffer with one leading space, so the match offset is the
whitespace-skipped position. -/
def c5lexer : Lexer :=
  { buffer := " ab".data, pos := 0, col_no := 0, line_start := 0,
    ignore_ws := true, error_func := none, rules := [("CH", c5pa)] }

/-- C10 witness: a rule whose action drops the token. -/
def c10pa : PatternAction :=
  { pattern := fun b i => if i + 1 ≤ b.length then some (i + 1) else none,
    action := fun c _t => (c, none) }

/-- C10 witness: the buffer still holds a second character when iteration
stops. -/
def c10lexer : Lexer :=
  { buffer := "ab".data, pos := 0, col_no := 0, line_start := 0,
    ignore_ws := true, error_func := none, rules := [("SKIP", c10pa)] }

/-- C4 witness: a rule matching exactly one character. -/
def c4pa1 : PatternAction :=
  { pattern := fun b i => if i + 1 ≤ b.length then some (i + 1) else none,
    action := fun c t => (c, some t) }

/-- C4 witness: a rule matching exactly two characters at the same offset. -/
def c4pa2 : PatternAction :=
  { pattern := fun b i => if i + 2 ≤ b.length then some (i + 2) else none,
    action := fun c t => (c, some t) }

/-- C4 witness: both rules match at offset zero of the buffer. -/
def c4lexer : Lexer :=
  { buffer := "ab".data, pos := 0, col_no := 0, line_start := 0,
    ignore_ws := true, error_func := none,
    rules := [("ONE", c4pa1), ("TWO", c4pa2)] }

/-- C7 witness: no rule is registered, so nothing matches the buffer. -/
def c7lexer : Lexer :=
  { buffer := "#".data, pos := 0, col_no := 0, line_start := 0,
    ignore_ws := true, error_func := none, rules := [] }

/-- C3 witness: a rule matching exactly one non-whitespace character, with an
identity action. -/
def c3pa : PatternAction :=
  { pattern := fun b i =>
      if i < b.length && !(isPySpace (b.getD i ' ')) then some (i + 1) else none,
    action := fun c t => (c, some t) }

/-- C3 witness: the session buffer mixes tokens and whitespace. -/
def c3lexer : Lexer :=
  { buffer := "a b".data, pos := 0, col_no := 0, line_start := 0,
    ignore_ws := true, error_func := none, rules := [("CH", c3pa)] }

theorem wsRun_le (l : List Char) : wsRun l ≤ l.length := by
  unfold wsRun
  induction l with
  | nil => simp
  | cons a t ih =>
      rw [List.takeWhile_cons]
      split <;> simp <;> omega

theorem wsMatch_some {b : List Char} {i e : Nat} (h : wsMatch b i = some e) :
    i ≤ e ∧ e ≤ b.length := by
  unfold wsMatch at h
  split at h
  · exact absurd h (by simp)
  · have he : e = i + wsRun (b.drop i) := by
      injection h with h
      omega
    have hb := wsRun_le (b.drop i)
    rw [List.length_drop] at hb
    omega

theorem skipWs_buffer (c : LexCursor) : (skipWs c).buffer = c.buffer := by
  unfold skipWs
  split
  · split
    · split <;> rfl
    · rfl
  · rfl

theorem skipWs_pos_le (c : LexCursor) : c.pos ≤ (skipWs c).pos := by
  unfold skipWs
  split
  · split
    · rename_i e h
      have := wsMatch_some h
      split <;> simp <;> omega
    · exact Nat.le_refl _
  · exact Nat.le_refl _

theorem skipWs_pos_bound (c : LexCursor) (h : c.pos ≤ c.buffer.length) :
    (skipWs c).pos ≤ c.buffer.length := by
  unfold skipWs
  split
  · split
    · rename_i e he
      have := wsMatch_some he
      split <;> simp <;> omega
    · exact h
  · exact h

theorem skipWs_line_start_le (c : LexCursor) (h : c.line_start ≤ c.pos) :
    (skipWs c).line_start ≤ (skipWs c).pos := by
  unfold skipWs
  split
  · split
    · rename_i e he
      have := wsMatch_some he
      split <;> simp <;> omega
    · exact h
  · exact h

theorem skipWs_of_ge (c : LexCursor) (h : c.buffer.length ≤ c.pos) :
    skipWs c = c := by
  unfold skipWs
  have hnone : wsMatch c.buffer c.pos = none := by
    unfold wsMatch
    have : c.buffer.drop c.pos = [] := List.drop_eq_nil_of_le h
    rw [this]
    simp [wsRun]
  split
  · rw [hnone]
  · rfl

theorem firstMatch_sound {rules : List (String × PatternAction)} {b : List Char}
    {i : Nat} {n : String} {pa : PatternAction} {e : Nat}
    (h : firstMatch rules b i = some (n, pa, e)) :
    (n, pa) ∈ rules ∧ pa.pattern b i = some e := by
  induction rules with
  | nil => exact absurd h (by simp [firstMatch])
  | cons r rest ih =>
      obtain ⟨rn, rpa⟩ := r
      unfold firstMatch at h
      split at h
      · rename_i e' heq
        simp only [Option.some.injEq, Prod.mk.injEq] at h
        obtain ⟨h1, h2, h3⟩ := h
        subst h1; subst h2; subst h3
        exact ⟨List.mem_cons_self _ _, heq⟩
      · have := ih h
        exact ⟨List.mem_cons_of_mem _ this.1, this.2⟩

theorem pySlice_eq_take_drop (b : List Char) (i j : Nat) :
    pySlice b i j = (b.drop i).take (j - i) := by
  unfold pySlice
  rw [List.drop_take]

theorem pySlice_append (b : List Char) {i j k : Nat} (hij : i ≤ j) (hjk : j ≤ k) :
    pySlice b i j ++ pySlice b j k = pySlice b i k := by
  rw [pySlice_eq_take_drop, pySlice_eq_take_drop, pySlice_eq_take_drop]
  have hdrop : b.drop j = (b.drop i).drop (j - i) := by
    rw [List.drop_drop]
    congr 1
    omega
  rw [hdrop, ← List.take_add]
  congr 1
  omega

theorem pySlice_zero_length (b : List Char) : pySlice b 0 b.length = b := by
  simp [pySlice]

theorem _error_is_error (l : Lexer) : ∃ e, l._error = Except.error e := by
  unfold Lexer._error
  cases l.error_func <;> exact ⟨_, rfl⟩

/-! ### Claims -/

/-- C6: for every lexer state, `get_pos` returns the pair whose first
component is the number of newline characters in `buffer[0:pos]` and whose
second component is `pos - line_start`. -/
theorem get_pos_counts_newlines (l : Lexer) :
    l.get_pos = ((l.buffer.take l.pos).count '\n',
                 (l.pos : Int) - (l.line_start : Int)) := by
  rfl

/-- C1: a lexer whose previous session left `line_start = 2` keeps that value
across `setup` — the source resets `pos` and the unused `col_no` but not
`_line_start` — so `get_pos` on the fresh buffer reports column `-2`,
contradicting the claim that `setup` sets `line_start` to zero.  (`pos`,
`ignore_whitespace`, the registry and the hook behave as claimed.) -/
theorem setup_keeps_line_start :
    (Lexer.setup { buffer := "a\nb".data, pos := 3, col_no := 0, line_start := 2,
                   ignore_ws := true, error_func := none, rules := [] }
        "x".data true).pos = 0 ∧
    (Lexer.setup { buffer := "a\nb".data, pos := 3, col_no := 0, line_start := 2,
                   ignore_ws := true, error_func := none, rules := [] }
        "x".data true).ignore_ws = true ∧
    (Lexer.setup { buffer := "a\nb".data, pos := 3, col_no := 0, line_start := 2,
                   ignore_ws := true, error_func := none, rules := [] }
        "x".data true).line_start = 2 ∧
    (Lexer.setup { buffer := "a\nb".data, pos := 3, col_no := 0, line_start := 2,
                   ignore_ws := true, error_func := none, rules := [] }
        "x".data true).get_pos = (0, -2) := by
  refine ⟨rfl, rfl, rfl, ?_⟩
  decide

/-- C2: with a hook installed and no rule matching at the current position,
the engine raises `AttributeError` for the never-assigned attribute `_pos`
(line 213 reads `self.buffer[self._pos]`): the installed hook is never
invoked with the engine state and the offending character. -/
theorem error_hook_never_invoked :
    c2lexer._token = Except.error (PyErr.attributeError ("_pos")) := by
  rfl

/-- C9: when the external `re.compile` rejects the pattern source, `on_match`
fails synchronously with that error and produces no updated lexer: the
compile runs before the registry assignment, so the registry is left exactly
as it was — the name is not added and no existing rule is changed. -/
theorem on_match_compile_error (l : Lexer)
    (re_compile : String → Except (List Char) (List Char → Nat → Option Nat))
    (pattern func_name : String) (func : LexAction) (e : List Char)
    (h : re_compile pattern = Except.error e) :
    l.on_match re_compile pattern func_name func = Except.error e ∧
    ∀ l' : Lexer, l.on_match re_compile pattern func_name func ≠ Except.ok l' := by
  unfold Lexer.on_match
  rw [h]
  exact ⟨rfl, fun l' hc => by exact absurd hc (by simp)⟩

/-- C9 witness: `on_match` under the failing compile capability leaves the
fresh lexer's registry untouched. -/
theorem on_match_compile_error_witness :
    c9compile ("(") = Except.error ("bad pattern".data) ∧
    Lexer.init.on_match c9compile ("(") ("RULE") (fun c t => (c, some t))
      = Except.error ("bad pattern".data) :=
  ⟨rfl, (on_match_compile_error Lexer.init c9compile ("(") ("RULE")
      (fun c t => (c, some t)) ("bad pattern".data) rfl).1⟩

/-- C8: once the buffer is exhausted — `pos` at or past the end after the
trailing whitespace skip — `_token` returns the end-of-input signal (`None`,
hence `StopIteration` from `__next__`), the resulting state is unchanged by
further pulls, and every further pull returns the same signal: no further
token and no error follow. -/
theorem end_of_input_terminal (l : Lexer)
    (h : l.buffer.length ≤ (skipWs l.toLexCursor).pos) :
    l._token = Except.ok ({ l with toLexCursor := skipWs l.toLexCursor }, none) ∧
    ({ l with toLexCursor := skipWs l.toLexCursor } : Lexer)._token
      = Except.ok ({ l with toLexCursor := skipWs l.toLexCursor }, none) ∧
    l.next = Except.error PyErr.stopIteration ∧
    ({ l with toLexCursor := skipWs l.toLexCursor } : Lexer).next
      = Except.error PyErr.stopIteration := by
  have hbuf : (skipWs l.toLexCursor).buffer = l.buffer := skipWs_buffer _
  have hle : (skipWs l.toLexCursor).buffer.length ≤ (skipWs l.toLexCursor).pos := by
    rw [hbuf]; exact h
  have hfix : skipWs (skipWs l.toLexCursor) = skipWs l.toLexCursor :=
    skipWs_of_ge _ hle
  have h1 : l._token = Except.ok ({ l with toLexCursor := skipWs l.toLexCursor }, none) := by
    unfold Lexer._token
    rw [if_pos hle]
  have h2 : ({ l with toLexCursor := skipWs l.toLexCursor } : Lexer)._token
      = Except.ok ({ l with toLexCursor := skipWs l.toLexCursor }, none) := by
    unfold Lexer._token
    simp only
    rw [hfix, if_pos hle]
  refine ⟨h1, h2, ?_, ?_⟩
  · unfold Lexer.next
    rw [h1]
  · unfold Lexer.next
    rw [h2]

/-- C8 witness: the end-of-input theorem applied to the all-whitespace buffer. -/
theorem end_of_input_terminal_witness :
    c8lexer.buffer.length ≤ (skipWs c8lexer.toLexCursor).pos ∧
    c8lexer.next = Except.error PyErr.stopIteration :=
  ⟨by decide, (end_of_input_terminal c8lexer (by decide)).2.2.1⟩

/-- C5: when some rule matches at the current offset, the token handed to the
rule's action has value the matched text `buffer[pos:end]`, type the matching
rule's name, and position the `(line, column)` computed at the match start
before any advance; the value yielded by `_token` is exactly the action's
return value, and `pos` is advanced to the match end only after the action
has been invoked (`self.pos = match.end()` overrides any `pos` the action
itself set). -/
theorem match_builds_token_then_advances (l : Lexer) (name : String)
    (pa : PatternAction) (e : Nat)
    (hlt : (skipWs l.toLexCursor).pos < (skipWs l.toLexCursor).buffer.length)
    (hm : firstMatch l.rules (skipWs l.toLexCursor).buffer (skipWs l.toLexCursor).pos
            = some (name, pa, e)) :
    ∃ c out,
      pa.action (skipWs l.toLexCursor)
          ⟨pySlice (skipWs l.toLexCursor).buffer (skipWs l.toLexCursor).pos e, name,
           (skipWs l.toLexCursor).get_pos⟩ = (c, out) ∧
      l._token = Except.ok ({ l with toLexCursor := { c with pos := e } }, out) := by
  refine ⟨_, _, rfl, ?_⟩
  unfold Lexer._token
  simp only
  rw [if_neg (by omega), hm]

/-- C5 witness: the token-construction theorem applied at the concrete state. -/
theorem match_builds_token_then_advances_witness :
    (skipWs c5lexer.toLexCursor).pos < (skipWs c5lexer.toLexCursor).buffer.length ∧
    (∃ c out,
      c5pa.action (skipWs c5lexer.toLexCursor)
          ⟨pySlice (skipWs c5lexer.toLexCursor).buffer (skipWs c5lexer.toLexCursor).pos 2,
           "CH", (skipWs c5lexer.toLexCursor).get_pos⟩ = (c, out) ∧
      c5lexer._token = Except.ok ({ c5lexer with toLexCursor := { c with pos := 2 } }, out)) :=
  ⟨by decide, match_builds_token_then_advances c5lexer ("CH") c5pa 2 (by decide) rfl⟩

/-- C10: when the matched rule's action returns `None` instead of a token,
`_token` still advances `pos` to the match end and returns `None`, so the
public iteration raises `StopIteration` exactly as if the buffer were
exhausted, even though unconsumed input may remain. -/
theorem action_none_stops_iteration (l : Lexer) (name : String)
    (pa : PatternAction) (e : Nat) (c : LexCursor)
    (hlt : (skipWs l.toLexCursor).pos < (skipWs l.toLexCursor).buffer.length)
    (hm : firstMatch l.rules (skipWs l.toLexCursor).buffer (skipWs l.toLexCursor).pos
            = some (name, pa, e))
    (hact : pa.action (skipWs l.toLexCursor)
          ⟨pySlice (skipWs l.toLexCursor).buffer (skipWs l.toLexCursor).pos e, name,
           (skipWs l.toLexCursor).get_pos⟩ = (c, none)) :
    l._token = Except.ok ({ l with toLexCursor := { c with pos := e } }, none) ∧
    l.next = Except.error PyErr.stopIteration ∧
    ({ l with toLexCursor := { c with pos := e } } : Lexer).pos = e := by
  have h1 : l._token = Except.ok ({ l with toLexCursor := { c with pos := e } }, none) := by
    unfold Lexer._token
    simp only
    rw [if_neg (by omega), hm]
    simp only [hact]
  refine ⟨h1, ?_, rfl⟩
  unfold Lexer.next
  rw [h1]

/-- C10 witness: the action-returns-None theorem applied at the concrete
state. -/
theorem action_none_stops_iteration_witness :
    (skipWs c10lexer.toLexCursor).pos < (skipWs c10lexer.toLexCursor).buffer.length ∧
    c10lexer.next = Except.error PyErr.stopIteration :=
  ⟨by decide, (action_none_stops_iteration c10lexer ("SKIP") c10pa 1
      c10lexer.toLexCursor (by decide) rfl rfl).2.1⟩

/-- C4: when two registered rules both match at the current offset, `_token`
selects the rule registered first.  With identity actions, the yielded token
carries the first rule's name and its own matched text; in the lexer that
differs only by swapping the two rules' registration order, the other rule
wins, and each winner's matched length is still the one produced by its own
pattern alone (`e1` respectively `e2`), not affected by the ordering. -/
theorem rule_order_first_match_wins (l : Lexer) (n1 n2 : String)
    (pa1 pa2 : PatternAction) (rest : List (String × PatternAction)) (e1 e2 : Nat)
    (hr : l.rules = (n1, pa1) :: (n2, pa2) :: rest)
    (hlt : (skipWs l.toLexCursor).pos < (skipWs l.toLexCursor).buffer.length)
    (h1 : pa1.pattern (skipWs l.toLexCursor).buffer (skipWs l.toLexCursor).pos = some e1)
    (h2 : pa2.pattern (skipWs l.toLexCursor).buffer (skipWs l.toLexCursor).pos = some e2)
    (ha1 : IdAction pa1.action) (ha2 : IdAction pa2.action) :
    l._token = Except.ok
      ({ l with toLexCursor := { skipWs l.toLexCursor with pos := e1 } },
       some ⟨pySlice (skipWs l.toLexCursor).buffer (skipWs l.toLexCursor).pos e1, n1,
             (skipWs l.toLexCursor).get_pos⟩) ∧
    ({ l with rules := (n2, pa2) :: (n1, pa1) :: rest } : Lexer)._token = Except.ok
      ({ l with rules := (n2, pa2) :: (n1, pa1) :: rest,
                toLexCursor := { skipWs l.toLexCursor with pos := e2 } },
       some ⟨pySlice (skipWs l.toLexCursor).buffer (skipWs l.toLexCursor).pos e2, n2,
             (skipWs l.toLexCursor).get_pos⟩) := by
  constructor
  · unfold Lexer._token
    simp only
    rw [if_neg (by omega)]
    have hfm : firstMatch l.rules (skipWs l.toLexCursor).buffer (skipWs l.toLexCursor).pos
        = some (n1, pa1, e1) := by
      rw [hr]
      unfold firstMatch
      rw [h1]
    rw [hfm]
    simp only [show ∀ c t, pa1.action c t = (c, some t) from ha1]
  · unfold Lexer._token
    simp only
    rw [if_neg (by omega)]
    have hfm : firstMatch ((n2, pa2) :: (n1, pa1) :: rest)
        (skipWs l.toLexCursor).buffer (skipWs l.toLexCursor).pos = some (n2, pa2, e2) := by
      unfold firstMatch
      rw [h2]
    rw [hfm]
    simp only [show ∀ c t, pa2.action c t = (c, some t) from ha2]

/-- C4 witness: the rule-order theorem applied at the concrete state where
both rules match. -/
theorem rule_order_first_match_wins_witness :
    (skipWs c4lexer.toLexCursor).pos < (skipWs c4lexer.toLexCursor).buffer.length ∧
    c4pa1.pattern (skipWs c4lexer.toLexCursor).buffer (skipWs c4lexer.toLexCursor).pos = some 1 ∧
    c4pa2.pattern (skipWs c4lexer.toLexCursor).buffer (skipWs c4lexer.toLexCursor).pos = some 2 ∧
    (c4lexer._token = Except.ok
      ({ c4lexer with toLexCursor := { skipWs c4lexer.toLexCursor with pos := 1 } },
       some ⟨pySlice (skipWs c4lexer.toLexCursor).buffer (skipWs c4lexer.toLexCursor).pos 1,
             "ONE", (skipWs c4lexer.toLexCursor).get_pos⟩) ∧
    ({ c4lexer with rules := [("TWO", c4pa2), ("ONE", c4pa1)] } : Lexer)._token = Except.ok
      ({ c4lexer with rules := [("TWO", c4pa2), ("ONE", c4pa1)],
                      toLexCursor := { skipWs c4lexer.toLexCursor with pos := 2 } },
       some ⟨pySlice (skipWs c4lexer.toLexCursor).buffer (skipWs c4lexer.toLexCursor).pos 2,
             "TWO", (skipWs c4lexer.toLexCursor).get_pos⟩)) :=
  ⟨by decide, by decide, by decide,
   rule_order_first_match_wins c4lexer ("ONE") ("TWO") c4pa1 c4pa2 [] 1 2 rfl
     (by decide) (by decide) (by decide) (fun c t => rfl) (fun c t => rfl)⟩

/-! ### Facts about `pySplitNl` and `lineContaining`, for the diagnostic claim -/

theorem takeWhile_all {p : Char → Bool} {xs : List Char}
    (h : ∀ x ∈ xs, p x = true) : xs.takeWhile p = xs := by
  induction xs with
  | nil => rfl
  | cons a t ih =>
      rw [List.takeWhile_cons, if_pos (h a (List.mem_cons_self a t))]
      rw [ih (fun x hx => h x (List.mem_cons_of_mem a hx))]

theorem takeWhile_append_all {p : Char → Bool} {xs ys : List Char}
    (h : ∀ x ∈ xs, p x = true) :
    (xs ++ ys).takeWhile p = xs ++ ys.takeWhile p := by
  induction xs with
  | nil => simp
  | cons a t ih =>
      rw [List.cons_append, List.takeWhile_cons, if_pos (h a (List.mem_cons_self a t))]
      rw [ih (fun x hx => h x (List.mem_cons_of_mem a hx))]
      rfl

theorem takeWhile_append_of_mem_neg {p : Char → Bool} {xs : List Char}
    (ys : List Char) (h : ∃ x ∈ xs, p x = false) :
    (xs ++ ys).takeWhile p = xs.takeWhile p := by
  induction xs with
  | nil =>
      obtain ⟨x, hx, _⟩ := h
      exact absurd hx (List.not_mem_nil x)
  | cons a t ih =>
      by_cases hpa : p a = true
      · have hex : ∃ x ∈ t, p x = false := by
          obtain ⟨x, hx, hpx⟩ := h
          rcases List.mem_cons.mp hx with hxa | hxt
          · rw [hxa] at hpx
            rw [hpa] at hpx
            exact absurd hpx (by simp)
          · exact ⟨x, hxt, hpx⟩
        rw [List.cons_append, List.takeWhile_cons, if_pos hpa, ih hex,
          List.takeWhile_cons, if_pos hpa]
      · rw [List.cons_append, List.takeWhile_cons,
          if_neg hpa, List.takeWhile_cons, if_neg hpa]

theorem takeWhile_append_singleton_neg {p : Char → Bool} {y : Char}
    (xs : List Char) (hy : p y = false) :
    (xs ++ [y]).takeWhile p = xs.takeWhile p := by
  by_cases hall : ∀ x ∈ xs, p x = true
  · rw [takeWhile_append_all hall, takeWhile_all hall, List.takeWhile_cons,
      if_neg (by simp [hy]), List.append_nil]
  · push_neg at hall
    obtain ⟨x, hx, hpx⟩ := hall
    exact takeWhile_append_of_mem_neg [y] ⟨x, hx, by simpa using hpx⟩

theorem pySplitNl_shape (b : List Char) : ∃ l ls, pySplitNl b = l :: ls := by
  induction b with
  | nil => exact ⟨[], [], rfl⟩
  | cons c cs ih =>
      obtain ⟨l, ls, hls⟩ := ih
      by_cases hc : c = '\n'
      · refine ⟨[], pySplitNl cs, ?_⟩
        subst hc
        rfl
      · refine ⟨c :: l, ls, ?_⟩
        conv_lhs => rw [pySplitNl]
        rw [if_neg hc, hls]

theorem pySplitNl_getD_zero (b : List Char) :
    (pySplitNl b).getD 0 [] = b.takeWhile (fun c => c != '\n') := by
  induction b with
  | nil => rfl
  | cons c cs ih =>
      by_cases hc : c = '\n'
      · subst hc
        unfold pySplitNl
        rw [if_pos rfl, List.takeWhile_cons, if_neg (by simp)]
        rfl
      · obtain ⟨l, ls, hls⟩ := pySplitNl_shape cs
        unfold pySplitNl
        rw [if_neg hc, hls, List.takeWhile_cons, if_pos (by simpa using hc)]
        rw [hls] at ih
        simp only [List.getD_cons_zero] at ih ⊢
        rw [ih]

theorem pySplitNl_getD_succ_of_ne {c : Char} (cs : List Char) (j : Nat)
    (hc : ¬ c = '\n') :
    (pySplitNl (c :: cs)).getD (j + 1) [] = (pySplitNl cs).getD (j + 1) [] := by
  obtain ⟨l, ls, hls⟩ := pySplitNl_shape cs
  conv_lhs => rw [pySplitNl]
  rw [if_neg hc, hls]
  rfl

theorem pySplitNl_getD_succ_of_nl (cs : List Char) (j : Nat) :
    (pySplitNl ('\n' :: cs)).getD (j + 1) [] = (pySplitNl cs).getD j [] := by
  rfl

theorem lineContaining_of_no_nl (b : List Char) (p : Nat)
    (h : '\n' ∉ b.take p) :
    lineContaining b p = b.takeWhile (fun c => c != '\n') := by
  unfold lineContaining
  have hall : ∀ x ∈ (b.take p).reverse, (fun c => c != '\n') x = true := by
    intro x hx
    have : x ∈ b.take p := List.mem_reverse.mp hx
    simp only [bne_iff_ne, ne_eq]
    intro hxeq
    exact h (hxeq ▸ this)
  rw [takeWhile_all hall, List.reverse_reverse]
  have hall' : ∀ x ∈ b.take p, (fun c => c != '\n') x = true := by
    intro x hx
    simp only [bne_iff_ne, ne_eq]
    intro hxeq
    exact h (hxeq ▸ hx)
  conv_rhs => rw [← List.take_append_drop p b]
  rw [takeWhile_append_all hall']

theorem lineContaining_cons_nl (cs : List Char) (q : Nat) :
    lineContaining ('\n' :: cs) (q + 1) = lineContaining cs q := by
  unfold lineContaining
  rw [List.take_succ_cons, List.drop_succ_cons, List.reverse_cons,
    takeWhile_append_singleton_neg _ (by simp)]

theorem lineContaining_cons_ne {c : Char} (cs : List Char) (q : Nat)
    (hc : ¬ c = '\n') (hmem : '\n' ∈ cs.take q) :
    lineContaining (c :: cs) (q + 1) = lineContaining cs q := by
  unfold lineContaining
  rw [List.take_succ_cons, List.drop_succ_cons, List.reverse_cons,
    takeWhile_append_of_mem_neg [c] ⟨'\n', List.mem_reverse.mpr hmem, by simp⟩]

theorem pySplitNl_getD_count (b : List Char) : ∀ p : Nat,
    (pySplitNl b).getD ((b.take p).count '\n') [] = lineContaining b p := by
  induction b with
  | nil =>
      intro p
      simp [pySplitNl, lineContaining]
  | cons c cs ih =>
      intro p
      cases p with
      | zero =>
          rw [List.take_zero, List.count_nil, pySplitNl_getD_zero,
            lineContaining_of_no_nl _ _ (by simp)]
      | succ q =>
          rw [List.take_succ_cons]
          by_cases hc : c = '\n'
          · subst hc
            rw [List.count_cons_self, pySplitNl_getD_succ_of_nl, ih q,
              lineContaining_cons_nl]
          · rw [List.count_cons_of_ne (fun hcc => hc hcc.symm)]
            by_cases hmem : '\n' ∈ cs.take q
            · have hpos : 0 < (cs.take q).count '\n' := List.count_pos_iff.mpr hmem
              obtain ⟨j, hj⟩ : ∃ j, (cs.take q).count '\n' = j + 1 :=
                ⟨(cs.take q).count '\n' - 1, by omega⟩
              rw [hj, pySplitNl_getD_succ_of_ne cs j hc, ← hj, ih q,
                lineContaining_cons_ne cs q hc hmem]
            · rw [List.count_eq_zero.mpr hmem, pySplitNl_getD_zero,
                lineContaining_of_no_nl _ _ (by
                  rw [List.take_succ_cons]
                  intro hin
                  rcases List.mem_cons.mp hin with h1 | h2
                  · exact hc h1.symm
                  · exact hmem h2)]

theorem _error_default (l : Lexer) (hhook : l.error_func = none) :
    l._error = Except.error (PyErr.lexerError (LEXER_ERR_MSG
      ((l.buffer.take l.pos).count '\n')
      ((l.pos : Int) - (l.line_start : Int))
      (lineContaining l.buffer l.pos)
      (List.replicate (l.pos - l.line_start) ' '))) := by
  unfold Lexer._error
  rw [hhook]
  simp only [LexCursor.get_pos, pySlice, List.drop_zero]
  rw [pySplitNl_getD_count l.buffer l.pos, Int.toNat_sub]

/-- C7: with no error hook installed and no rule matching at the current
position, `_token` raises a `LexError` whose message is exactly the
`LEXER_ERR_MSG` template instantiated with the 0-indexed line (the newline
count of `buffer[0:pos]`), the 0-indexed column `pos - line_start`, the full
text of the source line containing the failure offset, and a caret line
whose prefix after the common five-space indent is exactly `column` space
characters (the stated invariant `line_start ≤ pos` makes the rendered
column non-negative and equal to that count). -/
theorem no_match_default_error (l : Lexer)
    (hhook : l.error_func = none)
    (hls : l.line_start ≤ l.pos)
    (hlt : (skipWs l.toLexCursor).pos < (skipWs l.toLexCursor).buffer.length)
    (hm : firstMatch l.rules (skipWs l.toLexCursor).buffer (skipWs l.toLexCursor).pos
            = none) :
    (skipWs l.toLexCursor).line_start ≤ (skipWs l.toLexCursor).pos ∧
    l._token = Except.error (PyErr.lexerError (LEXER_ERR_MSG
      ((l.buffer.take (skipWs l.toLexCursor).pos).count '\n')
      (((skipWs l.toLexCursor).pos : Int) - ((skipWs l.toLexCursor).line_start : Int))
      (lineContaining l.buffer (skipWs l.toLexCursor).pos)
      (List.replicate ((skipWs l.toLexCursor).pos - (skipWs l.toLexCursor).line_start) ' '))) := by
  have hbuf : (skipWs l.toLexCursor).buffer = l.buffer := skipWs_buffer _
  refine ⟨skipWs_line_start_le l.toLexCursor hls, ?_⟩
  unfold Lexer._token
  simp only
  rw [if_neg (by omega), hm]
  rw [_error_default { l with toLexCursor := skipWs l.toLexCursor } hhook]
  simp only [hbuf]

/-- C7 witness: the diagnostic theorem applied at the concrete state. -/
theorem no_match_default_error_witness :
    c7lexer.line_start ≤ c7lexer.pos ∧
    ((skipWs c7lexer.toLexCursor).line_start ≤ (skipWs c7lexer.toLexCursor).pos ∧
     c7lexer._token = Except.error (PyErr.lexerError (LEXER_ERR_MSG
       ((c7lexer.buffer.take (skipWs c7lexer.toLexCursor).pos).count '\n')
       (((skipWs c7lexer.toLexCursor).pos : Int)
          - ((skipWs c7lexer.toLexCursor).line_start : Int))
       (lineContaining c7lexer.buffer (skipWs c7lexer.toLexCursor).pos)
       (List.replicate
         ((skipWs c7lexer.toLexCursor).pos - (skipWs c7lexer.toLexCursor).line_start)
         ' ')))) :=
  ⟨by decide, no_match_default_error c7lexer rfl (by decide) (by decide) rfl⟩

theorem runPieces_join : ∀ (fuel : Nat) (l : Lexer) (pieces : List (List Char)),
    (∀ r ∈ l.rules, PatternWF r.2.pattern) →
    (∀ r ∈ l.rules, IdAction r.2.action) →
    l.pos ≤ l.buffer.length →
    runPieces fuel l = some pieces →
    pieces.flatten = pySlice l.buffer l.pos l.buffer.length := by
  intro fuel
  induction fuel with
  | zero =>
      intro l pieces _ _ _ hrun
      exact absurd hrun (by simp [runPieces])
  | succ fuel ih =>
      intro l pieces hwf hact hpos hrun
      have hbuf : (skipWs l.toLexCursor).buffer = l.buffer := skipWs_buffer _
      have hple : l.pos ≤ (skipWs l.toLexCursor).pos := skipWs_pos_le _
      have hpub : (skipWs l.toLexCursor).pos ≤ l.buffer.length := skipWs_pos_bound _ hpos
      simp only [runPieces] at hrun
      by_cases hend : (skipWs l.toLexCursor).buffer.length ≤ (skipWs l.toLexCursor).pos
      · have htok : l._token
            = Except.ok ({ l with toLexCursor := skipWs l.toLexCursor }, none) := by
          unfold Lexer._token
          simp only
          rw [if_pos hend]
        rw [htok] at hrun
        simp only [Option.some.injEq] at hrun
        subst hrun
        have hlen : (skipWs l.toLexCursor).pos = l.buffer.length := by
          rw [hbuf] at hend; omega
        rw [hlen]
        simp
      · have hlt : (skipWs l.toLexCursor).pos < (skipWs l.toLexCursor).buffer.length := by
          omega
        cases hfm : firstMatch l.rules (skipWs l.toLexCursor).buffer (skipWs l.toLexCursor).pos with
        | none =>
            obtain ⟨err, herr⟩ := _error_is_error { l with toLexCursor := skipWs l.toLexCursor }
            have htok : l._token = Except.error err := by
              unfold Lexer._token
              simp only
              rw [if_neg hend, hfm, herr]
            rw [htok] at hrun
            exact absurd hrun (by simp)
        | some v =>
            obtain ⟨name, pa, e⟩ := v
            obtain ⟨hmem, hpat⟩ := firstMatch_sound hfm
            have hid : ∀ c t, pa.action c t = (c, some t) := hact (name, pa) hmem
            have hwfe := hwf (name, pa) hmem _ _ _ hpat
            have htok : l._token = Except.ok
                ({ l with toLexCursor := { skipWs l.toLexCursor with pos := e } },
                 some ⟨pySlice (skipWs l.toLexCursor).buffer (skipWs l.toLexCursor).pos e,
                       name, (skipWs l.toLexCursor).get_pos⟩) := by
              unfold Lexer._token
              simp only
              rw [if_neg hend, hfm]
              simp only [hid]
            rw [htok] at hrun
            have hrun2 : Option.map
                (fun rest => pySlice l.buffer l.pos (skipWs l.toLexCursor).pos ::
                  pySlice (skipWs l.toLexCursor).buffer (skipWs l.toLexCursor).pos e :: rest)
                (runPieces fuel { l with toLexCursor := { skipWs l.toLexCursor with pos := e } })
                = some pieces := hrun
            cases hrest : runPieces fuel
                { l with toLexCursor := { skipWs l.toLexCursor with pos := e } } with
            | none =>
                rw [hrest] at hrun2
                exact absurd hrun2 (by simp)
            | some rest =>
                rw [hrest] at hrun2
                simp only [Option.map_some', Option.some.injEq] at hrun2
                subst hrun2
                have hih := ih { l with toLexCursor := { skipWs l.toLexCursor with pos := e } }
                  rest hwf hact (by exact hwfe.2) hrest
                simp only [List.flatten_cons]
                rw [hih]
                rw [hbuf] at hwfe ⊢
                rw [pySlice_append l.buffer hwfe.1 hwfe.2,
                  pySlice_append l.buffer hple hpub]

/-- C3: for a registered rule set whose patterns are well-formed anchored
matchers and whose actions return their token unchanged, and an input on
which every pull either consumes whitespace or matches some rule until end of
input (a session that `runPieces` completes within some fuel), concatenating
the value fields of all yielded tokens interspersed with the skipped
whitespace runs, in order, reconstructs the input buffer exactly. -/
theorem lossless_round_trip (fuel : Nat) (l : Lexer) (pieces : List (List Char))
    (hwf : ∀ r ∈ l.rules, PatternWF r.2.pattern)
    (hact : ∀ r ∈ l.rules, IdAction r.2.action)
    (hpos : l.pos = 0)
    (hrun : runPieces fuel l = some pieces) :
    pieces.flatten = l.buffer := by
  have h := runPieces_join fuel l pieces hwf hact (by rw [hpos]; exact Nat.zero_le _) hrun
  rw [h, hpos, pySlice_zero_length]

theorem c3pa_wf : PatternWF c3pa.pattern := by
  intro b i e h
  simp only [c3pa] at h
  split at h
  · rename_i hcond
    have hlt : i < b.length := by
      have := (Bool.and_eq_true _ _).mp hcond
      exact of_decide_eq_true this.1
    injection h with h
    omega
  · exact absurd h (by simp)

/-- C3 witness: the round-trip theorem applied to the concrete session. -/
theorem lossless_round_trip_witness :
    runPieces 4 c3lexer = some [[], ['a'], [' '], ['b'], []] ∧
    ([[], ['a'], [' '], ['b'], []] : List (List Char)).flatten = c3lexer.buffer :=
  ⟨by decide,
   lossless_round_trip 4 c3lexer [[], ['a'], [' '], ['b'], []]
     (by
       intro r hr
       rw [List.mem_singleton.mp hr]
       exact c3pa_wf)
     (by
       intro r hr
       rw [List.mem_singleton.mp hr]
       intro c t
       rfl)
     rfl
     (by decide)⟩
